import Mathlib

/-!
Verification of the workflowstorageservice repository (Go): a storage proxy
over an S3-compatible object store.  The definitions below are a shallow
embedding of the handlers in src/unnamed/part_000 (handleSemanticStore,
handleSemanticRetrieve, handleSemanticAction), src/cmd/main.go (handleStore)
and src/cmd/workflowstorageservice/rest_handlers.go.  Go strings are modelled
as Lean String; the absent-field convention of the Go code (empty string or
nil pointer) is kept: header values absent from a request are the empty
string, optional JSON map entries are Option values.
-/

namespace WStorage

/-- A stored S3 object: body bytes (modelled as the stored text) and the
content type recorded by PutObject.  GetObject may in principle return a nil
content type, hence Option. -/
structure S3Object where
  body : String
  contentType : Option String
deriving DecidableEq

/-- The object store contents: association list from (bucket, key) to object.
A put prepends, so the most recent write wins on lookup. -/
abbrev S3State := List ((String × String) × S3Object)

/-- PutObject: write an object under (bucket, key). -/
def putObject (st : S3State) (bucket key : String) (o : S3Object) : S3State :=
  ((bucket, key), o) :: st

/-- GetObject lookup: first (most recent) entry for (bucket, key). -/
def getObject : S3State → String → String → Option S3Object
  | [], _, _ => none
  | (bk, o) :: rest, b, k => if bk = (b, k) then some o else getObject rest b k

/-- Error kinds a GetObject call can fail with: the key does not exist, or
the backend/transport failed.  The Go code receives this as an opaque err. -/
inductive StoreErr | notFound | transport
deriving DecidableEq

/-- GetObject including the failure modes: a transport failure if the backend
is unreachable, otherwise not-found when the key is absent. -/
def s3Get (st : S3State) (transportFail : Bool) (bucket key : String) :
    Except StoreErr S3Object :=
  if transportFail then Except.error StoreErr.transport
  else match getObject st bucket key with
    | some o => Except.ok o
    | none => Except.error StoreErr.notFound

/-- Bucket resolution: os.Getenv HETZNER_S3_BUCKET, with default
"px-semantic" when the variable is empty/unset. -/
def goBucket (envBucket : String) : String :=
  if envBucket = "" then "px-semantic" else envBucket

/-- Workflow namespace resolution: the X-Workflow-ID header value (empty
string when the header is absent, as Go Header.Get returns), defaulting to
"default". -/
def goWorkflowID (hdr : String) : String :=
  if hdr = "" then "default" else hdr

/-- Content-format defaulting: empty encodingFormat becomes
"application/json". -/
def goFormat (fmt : String) : String :=
  if fmt = "" then "application/json" else fmt

/-- Byte length of a Go string: len of its UTF-8 bytes. -/
def goByteLen (s : String) : Nat := s.utf8ByteSize

/-- Key derivation, the fmt.Sprintf in handleSemanticStore and handleStore:
workflow-results/{namespace}/{identifier}.json -/
def deriveKey (ns identifier : String) : String :=
  "workflow-results/" ++ ns ++ "/" ++ identifier ++ ".json"

/-- The content type a fetched object reports: the recorded content type, or
"application/json" when the store returned none. -/
def goContentType (o : S3Object) : String :=
  match o.contentType with
  | some t => t
  | none => "application/json"

/-- SemanticMediaObject from part_000: contentUrl, encodingFormat and text,
each empty when the JSON field is absent. -/
structure SemanticMediaObject where
  contentUrl : String
  encodingFormat : String
  text : String
deriving DecidableEq

/-- SemanticStoreAction from part_000 (the fields the handler reads). -/
structure SemanticStoreAction where
  identifier : String
  object : Option SemanticMediaObject
deriving DecidableEq

/-- SemanticRetrieveAction from part_000 together with the raw-map fields the
handler reads: additionalProperty.outputFile, additionalProperty.outputType
(present-as-string or absent) and the result.contentUrl fallback. -/
structure SemanticRetrieveAction where
  identifier : String
  object : Option SemanticMediaObject
  propOutputFile : Option String
  propOutputType : Option String
  resultContentUrl : Option String
deriving DecidableEq

/-- StoreResponse from src/cmd/main.go. -/
structure StoreResponse where
  type : String
  id : String
  contentUrl : String
  encodingFormat : String
  contentSize : Nat
deriving DecidableEq

/-- Outcome of a store handler call: the HTTP error classes the Go code
returns, or success carrying the new store state and the response body. -/
inductive StoreOutcome where
  | badRequest (msg : String)
  | notImplemented (msg : String)
  | serverError (msg : String)
  | ok (newState : S3State) (resp : StoreResponse)
deriving DecidableEq

/-- The successful-retrieve payload: part_000 either returns a file-reference
envelope (result.contentUrl set, no inline data field) or a FetchResponse
(inline data field, no file reference).  The two optional fields record which
of the two response shapes was produced. -/
structure RetrievedResult where
  inlineData : Option String
  fileLocation : Option String
  format : String
  size : Nat
deriving DecidableEq

/-- Outcome of a retrieve handler call. -/
inductive RetrieveOutcome where
  | badRequest (msg : String)
  | notFound (msg : String)
  | serverError (msg : String)
  | ok (r : RetrievedResult)
deriving DecidableEq

/-- Splitting a character list on the slash separator, the strings.Split of
the Go code: empty input yields one empty segment, separators at the ends
yield empty segments. -/
def splitSlashChars : List Char → List (List Char)
  | [] => [[]]
  | c :: cs =>
    if c = '/' then [] :: splitSlashChars cs
    else match splitSlashChars cs with
      | [] => [ [c]]
      | s :: ss => (c :: s) :: ss

/-- Joining segments with the slash separator, the strings.Join of the Go
code. -/
def joinSlashChars : List (List Char) → List Char
  | [] => []
  | s :: [] => s
  | s :: t :: ts => s ++ '/' :: joinSlashChars (t :: ts)

/-- The s3:// scheme check and strip of handleSemanticRetrieve: contentURL
must start with the five bytes s3://, and the remainder is returned. -/
def dropS3Scheme (s : String) : Option String :=
  match s.data with
  | 's' :: '3' :: ':' :: '/' :: '/' :: rest => some (String.mk rest)
  | _ => none

/-- Classification of the two parse failures of handleSemanticRetrieve. -/
inductive ParseErr | unsupportedScheme | invalidFormat
deriving DecidableEq

/-- The location-parsing block of handleSemanticRetrieve, lines 165 to 177 of
part_000: reject URLs shorter than 6 bytes or without the s3:// scheme,
split the remainder on slashes, require at least two parts (the bucket plus
at least one key segment), and join everything after the bucket back with
slashes to obtain the storage key. -/
def parseS3Key (contentURL : String) : Except ParseErr String :=
  if contentURL.length < 6 then Except.error ParseErr.unsupportedScheme
  else match dropS3Scheme contentURL with
  | none => Except.error ParseErr.unsupportedScheme
  | some rest =>
    let parts := splitSlashChars rest.data
    if parts.length < 2 then Except.error ParseErr.invalidFormat
    else Except.ok (String.mk (joinSlashChars (parts.drop 1)))

/-- The store body shared by handleSemanticStore and reached once the data
and format are extracted: derive the key, put the object, and build the
DataDownload response. -/
def storeData (putOk : Bool) (hdr envBucket : String) (st : S3State)
    (identifier data fmt : String) : StoreOutcome :=
  let workflowID := goWorkflowID hdr
  let format := goFormat fmt
  let bucket := goBucket envBucket
  let key := deriveKey workflowID identifier
  if putOk then
    StoreOutcome.ok (putObject st bucket key ⟨data, some format⟩)
      ⟨"DataDownload", "#" ++ identifier ++ "-result",
       "s3://" ++ bucket ++ "/" ++ key, format, goByteLen data⟩
  else StoreOutcome.serverError "failed to store data"

/-- handleSemanticStore from part_000, lines 73 to 143.  The putOk flag
models whether the PutObject call succeeds.  No identifier validation is
performed by the source. -/
def handleSemanticStore (putOk : Bool) (hdr envBucket : String)
    (st : S3State) (a : SemanticStoreAction) : StoreOutcome :=
  match a.object with
  | none => StoreOutcome.badRequest "no data to store"
  | some obj =>
    if obj.text ≠ "" then
      storeData putOk hdr envBucket st a.identifier obj.text obj.encodingFormat
    else if obj.contentUrl ≠ "" then
      StoreOutcome.notImplemented "fetching from contentUrl not yet implemented"
    else StoreOutcome.badRequest "no data to store"

/-- The output-routing block of handleSemanticRetrieve, lines 213 to 293 of
part_000: an explicit outputFile property, else the result.contentUrl
fallback; outputType defaults to inline; route to a file when a path is
present or the type is file, synthesizing /tmp/{identifier}-result.dat when
no path was given; otherwise return the data inline. -/
def routeOutput (localWriteOk : Bool) (identifier : String)
    (pf pt rc : Option String) (data contentType : String) : RetrieveOutcome :=
  let outputFile0 := pf.getD ""
  let outputFile := if outputFile0 = "" then rc.getD "" else outputFile0
  let outputType := pt.getD "inline"
  if outputFile ≠ "" ∨ outputType = "file" then
    let path := if outputFile = "" then "/tmp/" ++ identifier ++ "-result.dat"
                else outputFile
    if localWriteOk then
      RetrieveOutcome.ok ⟨none, some path, contentType, goByteLen data⟩
    else RetrieveOutcome.serverError "Failed to write result to file"
  else RetrieveOutcome.ok ⟨some data, none, contentType, goByteLen data⟩

/-- handleSemanticRetrieve from part_000, lines 145 to 293: extract the
contentUrl, parse the s3:// location, fetch from the configured bucket with
any GetObject failure collapsing to a 404 data-not-found response, then apply
the output-routing decision. -/
def handleSemanticRetrieve (transportFail localWriteOk : Bool)
    (envBucket : String) (st : S3State) (a : SemanticRetrieveAction) :
    RetrieveOutcome :=
  let contentURL := match a.object with
    | some obj => obj.contentUrl
    | none => ""
  if contentURL = "" then
    RetrieveOutcome.badRequest "object.contentUrl is required (resource s3:// location)"
  else
    match parseS3Key contentURL with
    | Except.error ParseErr.unsupportedScheme =>
        RetrieveOutcome.badRequest "only s3:// URLs supported"
    | Except.error ParseErr.invalidFormat =>
        RetrieveOutcome.badRequest "invalid s3 URL format"
    | Except.ok key =>
      match s3Get st transportFail (goBucket envBucket) key with
      | Except.error _ => RetrieveOutcome.notFound "data not found"
      | Except.ok o =>
          routeOutput localWriteOk a.identifier a.propOutputFile
            a.propOutputType a.resultContentUrl o.body (goContentType o)

/-- StoreRequest from src/cmd/main.go. -/
structure StoreRequest where
  workflowId : String
  actionId : String
  data : String
  format : String
deriving DecidableEq

/-- handleStore from src/cmd/main.go, lines 154 to 201: the legacy store
endpoint, which rejects empty workflowId, actionId or data before touching
the object store. -/
def handleStore (putOk : Bool) (envBucket : String) (st : S3State)
    (req : StoreRequest) : StoreOutcome :=
  if req.workflowId = "" ∨ req.actionId = "" ∨ req.data = "" then
    StoreOutcome.badRequest "workflowId, actionId, and data are required"
  else
    storeData putOk req.workflowId envBucket st req.actionId req.data req.format

/-- Dispatch targets of handleSemanticAction. -/
inductive DispatchTarget where
  | store
  | retrieve
  | unsupported (t : String)
deriving DecidableEq

/-- The switch of handleSemanticAction in part_000, lines 61 to 70: the
action types routed to the store handler, the ones routed to the retrieve
handler, and everything else rejected as unsupported. -/
def dispatchActionType (t : String) : DispatchTarget :=
  match t with
  | "UploadAction" => DispatchTarget.store
  | "CreateAction" => DispatchTarget.store
  | "StoreAction" => DispatchTarget.store
  | "DownloadAction" => DispatchTarget.retrieve
  | "RetrieveAction" => DispatchTarget.retrieve
  | "FetchAction" => DispatchTarget.retrieve
  | other => DispatchTarget.unsupported other

/-- The action types registered with semantic.MustRegister in
src/cmd/workflowstorageservice/main.go, lines 28 to 33. -/
def registeredActionTypes : List String :=
  ["UploadAction", "CreateAction", "StoreAction",
   "DownloadAction", "RetrieveAction", "FetchAction"]

/-- The REST convenience verbs of rest_handlers.go. -/
inductive RestVerb | create | read | update | delete
deriving DecidableEq

/-- The @type each REST handler puts into the translated JSON-LD action:
storeWorkflowREST, getWorkflowREST, updateWorkflowREST, deleteWorkflowREST in
src/cmd/workflowstorageservice/rest_handlers.go. -/
def restActionType : RestVerb → String
  | RestVerb.create => "CreateAction"
  | RestVerb.read => "RetrieveAction"
  | RestVerb.update => "UpdateAction"
  | RestVerb.delete => "DeleteAction"

lemma strExt {a b : String} (h : a.data = b.data) : a = b := by
  cases a; cases b; exact congrArg String.mk h

lemma splitSlashChars_ne_nil (cs : List Char) : splitSlashChars cs ≠ [] := by
  induction cs with
  | nil => simp [splitSlashChars]
  | cons c cs ih =>
    simp only [splitSlashChars]
    split
    · simp
    · split
      · simp
      · simp

lemma splitSlashChars_sep (b rest : List Char) (hb : '/' ∉ b) :
    splitSlashChars (b ++ '/' :: rest) = b :: splitSlashChars rest := by
  induction b with
  | nil => simp [splitSlashChars]
  | cons c b ih =>
    have hc : ¬ c = '/' := fun h => hb (by simp [h])
    have hb2 : '/' ∉ b := fun h => hb (List.mem_cons_of_mem _ h)
    rw [List.cons_append]
    simp only [splitSlashChars, if_neg hc, ih hb2]

lemma joinSlashChars_splitSlashChars (cs : List Char) :
    joinSlashChars (splitSlashChars cs) = cs := by
  induction cs with
  | nil => rfl
  | cons c cs ih =>
    by_cases hc : c = '/'
    · subst hc
      simp only [splitSlashChars, if_pos rfl]
      cases h : splitSlashChars cs with
      | nil => exact absurd h (splitSlashChars_ne_nil cs)
      | cons s ss =>
        rw [h] at ih
        simp only [joinSlashChars, List.nil_append]
        rw [ih]
    · simp only [splitSlashChars, if_neg hc]
      cases h : splitSlashChars cs with
      | nil => exact absurd h (splitSlashChars_ne_nil cs)
      | cons s ss =>
        rw [h] at ih
        cases ss with
        | nil =>
          simp only [joinSlashChars] at ih ⊢
          rw [ih]
        | cons t ts =>
          simp only [joinSlashChars, List.cons_append] at ih ⊢
          rw [ih]

lemma slash_mem_of_split (cs : List Char) (h : 2 ≤ (splitSlashChars cs).length) :
    '/' ∈ cs := by
  induction cs with
  | nil => simp [splitSlashChars] at h
  | cons c cs ih =>
    by_cases hc : c = '/'
    · simp [hc]
    · simp only [splitSlashChars, if_neg hc] at h
      cases hs : splitSlashChars cs with
      | nil => exact absurd hs (splitSlashChars_ne_nil cs)
      | cons s ss =>
        rw [hs] at h
        simp only [List.length_cons] at h
        have : 2 ≤ (splitSlashChars cs).length := by rw [hs]; simp; omega
        exact List.mem_cons_of_mem _ (ih this)

lemma sep_inj (l1 r1 l2 r2 : List Char) (h1 : '/' ∉ l1) (h2 : '/' ∉ l2)
    (h : l1 ++ '/' :: r1 = l2 ++ '/' :: r2) : l1 = l2 ∧ r1 = r2 := by
  induction l1 generalizing l2 with
  | nil =>
    cases l2 with
    | nil => simpa using h
    | cons c l2 =>
      rw [List.nil_append, List.cons_append] at h
      obtain ⟨hc1, _⟩ := List.cons.inj h
      exact absurd (by simp [← hc1]) h2
  | cons c l1 ih =>
    cases l2 with
    | nil =>
      rw [List.cons_append, List.nil_append] at h
      obtain ⟨hc1, _⟩ := List.cons.inj h
      exact absurd (by simp [hc1]) h1
    | cons d l2 =>
      rw [List.cons_append, List.cons_append] at h
      obtain ⟨hc1, hrest⟩ := List.cons.inj h
      have h1b : '/' ∉ l1 := fun hm => h1 (List.mem_cons_of_mem _ hm)
      have h2b : '/' ∉ l2 := fun hm => h2 (List.mem_cons_of_mem _ hm)
      obtain ⟨he, hr⟩ := ih l2 h1b h2b hrest
      exact ⟨by rw [hc1, he], hr⟩

lemma dropS3Scheme_append (t : String) : dropS3Scheme ("s3://" ++ t) = some t := by
  have h : ("s3://" ++ t).data = 's' :: '3' :: ':' :: '/' :: '/' :: t.data := by
    rw [String.data_append]; rfl
  unfold dropS3Scheme
  rw [h]
  rfl

lemma dropS3Scheme_eq_some (s rest : String) (h : dropS3Scheme s = some rest) :
    s = "s3://" ++ rest := by
  unfold dropS3Scheme at h
  split at h
  next cs heq =>
    have hr : rest = String.mk cs := (Option.some.inj h).symm
    apply strExt
    rw [String.data_append, heq, hr]
    rfl
  next => exact absurd h (by simp)

lemma string_length_append (s t : String) : (s ++ t).length = s.length + t.length :=
  String.length_append s t

/-- Parsing the location URI built from a slash-free bucket and a key gives
back exactly that key. -/
lemma parseS3Key_build (b k : String) (hb : '/' ∉ b.data) :
    parseS3Key ("s3://" ++ b ++ "/" ++ k) = Except.ok k := by
  have hassoc : "s3://" ++ b ++ "/" ++ k = "s3://" ++ (b ++ "/" ++ k) := by
    simp [String.append_assoc]
  have hlen : ¬ ("s3://" ++ b ++ "/" ++ k).length < 6 := by
    rw [string_length_append, string_length_append, string_length_append]
    have h5 : ("s3://" : String).length = 5 := rfl
    have h1 : ("/" : String).length = 1 := rfl
    rw [h5, h1]
    omega
  have hdata : (b ++ "/" ++ k).data = b.data ++ '/' :: k.data := by
    rw [String.data_append, String.data_append]
    have : ("/" : String).data = ['/'] := rfl
    rw [this, List.append_assoc]
    rfl
  unfold parseS3Key
  rw [if_neg hlen, hassoc, dropS3Scheme_append]
  simp only [hdata]
  rw [splitSlashChars_sep _ _ hb]
  have hne := splitSlashChars_ne_nil k.data
  cases hs : splitSlashChars k.data with
  | nil => exact absurd hs hne
  | cons sg ss =>
    simp only [List.length_cons, List.drop_succ_cons, List.drop_zero]
    rw [if_neg (by omega)]
    rw [← hs, joinSlashChars_splitSlashChars]

lemma parseS3Key_ok_ne_empty (url k : String) (h : parseS3Key url = Except.ok k) :
    url ≠ "" := by
  intro he
  subst he
  rw [show parseS3Key "" = Except.error ParseErr.unsupportedScheme from rfl] at h
  exact Except.noConfusion h

lemma getObject_put (st : S3State) (b k : String) (o : S3Object) :
    getObject (putObject st b k o) b k = some o := by
  simp [putObject, getObject]

/-- Once the contentUrl is present and parses to a key, the retrieve handler
is the fetch from the configured bucket followed by output routing. -/
lemma handleSemanticRetrieve_parsed (tf lw : Bool) (envBucket : String)
    (st : S3State) (a : SemanticRetrieveAction) (obj : SemanticMediaObject)
    (key : String) (hobj : a.object = some obj)
    (hparse : parseS3Key obj.contentUrl = Except.ok key) :
    handleSemanticRetrieve tf lw envBucket st a =
      match s3Get st tf (goBucket envBucket) key with
      | Except.error _ => RetrieveOutcome.notFound "data not found"
      | Except.ok o =>
          routeOutput lw a.identifier a.propOutputFile a.propOutputType
            a.resultContentUrl o.body (goContentType o) := by
  have hne := parseS3Key_ok_ne_empty _ _ hparse
  unfold handleSemanticRetrieve
  simp only [hobj]
  rw [if_neg hne, hparse]

/-- A store action carrying inline text succeeds and its effect and response
are fully determined. -/
lemma store_text_ok (hdr envBucket : String) (st : S3State)
    (i text fmt : String) (h : text ≠ "") :
    handleSemanticStore true hdr envBucket st ⟨i, some ⟨"", fmt, text⟩⟩ =
      StoreOutcome.ok
        (putObject st (goBucket envBucket) (deriveKey (goWorkflowID hdr) i)
          ⟨text, some (goFormat fmt)⟩)
        ⟨"DataDownload", "#" ++ i ++ "-result",
         "s3://" ++ goBucket envBucket ++ "/" ++ deriveKey (goWorkflowID hdr) i,
         goFormat fmt, goByteLen text⟩ := by
  unfold handleSemanticStore storeData
  simp [h]

/-- C1: For every valid Store action with identifier i and namespace n (the
X-Workflow-ID header, defaulting to "default" when absent), the object is
written under the key workflow-results/{n}/{i}.json exactly, and the returned
location URI is s3://{bucket}/workflow-results/{n}/{i}.json with contentSize
equal to the byte length of the stored text. -/
theorem c1_store_key_and_location (putOk : Bool) (hdr envBucket : String)
    (st st2 : S3State) (a : SemanticStoreAction) (resp : StoreResponse)
    (h : handleSemanticStore putOk hdr envBucket st a = StoreOutcome.ok st2 resp) :
    resp.contentUrl =
      "s3://" ++ goBucket envBucket ++ "/"
        ++ deriveKey (goWorkflowID hdr) a.identifier ∧
    ∃ o, st2 = putObject st (goBucket envBucket)
                 (deriveKey (goWorkflowID hdr) a.identifier) o ∧
      resp.contentSize = goByteLen o.body := by
  cases hobj : a.object with
  | none => simp [handleSemanticStore, hobj] at h
  | some obj =>
    by_cases htext : obj.text = ""
    · by_cases hurl : obj.contentUrl = ""
      · simp [handleSemanticStore, hobj, htext, hurl] at h
      · simp [handleSemanticStore, hobj, htext, hurl] at h
    · cases putOk with
      | false => simp [handleSemanticStore, hobj, htext, storeData] at h
      | true =>
        have h2 : StoreOutcome.ok
            (putObject st (goBucket envBucket)
              (deriveKey (goWorkflowID hdr) a.identifier)
              ⟨obj.text, some (goFormat obj.encodingFormat)⟩)
            ⟨"DataDownload", "#" ++ a.identifier ++ "-result",
             "s3://" ++ goBucket envBucket ++ "/"
               ++ deriveKey (goWorkflowID hdr) a.identifier,
             goFormat obj.encodingFormat, goByteLen obj.text⟩
            = StoreOutcome.ok st2 resp := by
          rw [← h]
          simp [handleSemanticStore, hobj, htext, storeData]
        injection h2 with hst hresp
        exact ⟨by rw [← hresp],
          ⟨obj.text, some (goFormat obj.encodingFormat)⟩,
          by rw [← hst], by rw [← hresp]⟩

/-- C1 witness: a concrete store run hitting the theorem. -/
theorem c1_witness :
    (StoreResponse.mk "DataDownload" "#wf-1-result"
        "s3://px-semantic/workflow-results/wf/wf-1.json" "text/plain" 2).contentUrl =
      "s3://" ++ goBucket "" ++ "/" ++ deriveKey (goWorkflowID "wf") "wf-1" ∧
    ∃ o, putObject [] "px-semantic" "workflow-results/wf/wf-1.json"
           ⟨"hi", some "text/plain"⟩ =
         putObject [] (goBucket "") (deriveKey (goWorkflowID "wf") "wf-1") o ∧
      (StoreResponse.mk "DataDownload" "#wf-1-result"
        "s3://px-semantic/workflow-results/wf/wf-1.json" "text/plain" 2).contentSize
        = goByteLen o.body :=
  c1_store_key_and_location true "wf" "" []
    (putObject [] "px-semantic" "workflow-results/wf/wf-1.json" ⟨"hi", some "text/plain"⟩)
    ⟨"wf-1", some ⟨"", "text/plain", "hi"⟩⟩
    (StoreResponse.mk "DataDownload" "#wf-1-result"
      "s3://px-semantic/workflow-results/wf/wf-1.json" "text/plain" 2)
    rfl

/-- C2 counterexample: the claim demands at least two path segments after the
bucket, but a URI with a single segment after the bucket parses successfully:
s3://b/k yields key k, and the segment list after the bucket has length 1. -/
theorem c2_counterexample :
    parseS3Key "s3://b/k" = Except.ok "k" ∧
    ((splitSlashChars (String.data "b/k")).drop 1).length = 1 :=
  ⟨rfl, rfl⟩

/-- C2 amended: parsing fails unless the URI starts with the exact scheme
s3:// and the remainder has at least one path segment after the bucket
(equivalently, the remainder contains a slash); on success the key is the
segments after the bucket joined with slashes, separators preserved. -/
theorem c2_parse_amended (uri key : String) (h : parseS3Key uri = Except.ok key) :
    ∃ tail, uri = "s3://" ++ tail ∧ ('/' : Char) ∈ tail.data ∧
      2 ≤ (splitSlashChars tail.data).length ∧
      key = String.mk (joinSlashChars ((splitSlashChars tail.data).drop 1)) := by
  unfold parseS3Key at h
  split at h
  · exact Except.noConfusion h
  · split at h
    next => exact Except.noConfusion h
    next rest heq =>
      dsimp only at h
      split at h
      next => exact Except.noConfusion h
      next hlen2 =>
        refine ⟨rest, dropS3Scheme_eq_some _ _ heq, ?_, ?_, (Except.ok.inj h).symm⟩
        · exact slash_mem_of_split _ (by omega)
        · omega

/-- C2 witness: the amended characterization at the concrete URI
s3://b/x/y. -/
theorem c2_witness :
    ∃ tail, ("s3://b/x/y" : String) = "s3://" ++ tail ∧
      ('/' : Char) ∈ tail.data ∧
      2 ≤ (splitSlashChars tail.data).length ∧
      ("x/y" : String) = String.mk (joinSlashChars ((splitSlashChars tail.data).drop 1)) :=
  c2_parse_amended "s3://b/x/y" "x/y" rfl

/-- C3 counterexample: a retrieve against an unreachable backend and a
retrieve for a never-stored key produce identical responses, so not-found is
not surfaced distinctly from a transport failure. -/
theorem c3_counterexample :
    handleSemanticRetrieve true true "" []
        ⟨"wf-1", some ⟨"s3://b/k", "", ""⟩, none, none, none⟩
      = handleSemanticRetrieve false true "" []
        ⟨"wf-1", some ⟨"s3://b/k", "", ""⟩, none, none, none⟩ ∧
    handleSemanticRetrieve false true "" []
        ⟨"wf-1", some ⟨"s3://b/k", "", ""⟩, none, none, none⟩
      = RetrieveOutcome.notFound "data not found" :=
  ⟨rfl, rfl⟩

/-- C3 amended: every failing object-store read on Retrieve, not-found and
transport failure alike, is surfaced as the same 404 data-not-found
response; callers cannot tell never-stored apart from store-unavailable. -/
theorem c3_read_errors_uniform (tf lw : Bool) (envBucket : String)
    (st : S3State) (a : SemanticRetrieveAction) (obj : SemanticMediaObject)
    (key : String) (e : StoreErr)
    (hobj : a.object = some obj)
    (hparse : parseS3Key obj.contentUrl = Except.ok key)
    (herr : s3Get st tf (goBucket envBucket) key = Except.error e) :
    handleSemanticRetrieve tf lw envBucket st a
      = RetrieveOutcome.notFound "data not found" := by
  rw [handleSemanticRetrieve_parsed tf lw envBucket st a obj key hobj hparse, herr]

/-- C3 witness: the uniform-error theorem at a concrete never-stored key. -/
theorem c3_witness :
    handleSemanticRetrieve false true "" []
        ⟨"wf-1", some ⟨"s3://b/k", "", ""⟩, none, none, none⟩
      = RetrieveOutcome.notFound "data not found" :=
  c3_read_errors_uniform false true "" []
    ⟨"wf-1", some ⟨"s3://b/k", "", ""⟩, none, none, none⟩
    ⟨"s3://b/k", "", ""⟩ "k" StoreErr.notFound rfl rfl rfl

/-- Every successful routeOutput result populates exactly one of the inline
and file fields. -/
lemma routeOutput_ok_shape (lw : Bool) (i : String) (pf pt rc : Option String)
    (data ct : String) (r : RetrievedResult)
    (h : routeOutput lw i pf pt rc data ct = RetrieveOutcome.ok r) :
    (r.inlineData ≠ none ∧ r.fileLocation = none) ∨
    (r.inlineData = none ∧ r.fileLocation ≠ none) := by
  unfold routeOutput at h
  dsimp only at h
  by_cases hcond :
      (if pf.getD "" = "" then rc.getD "" else pf.getD "") ≠ "" ∨
        pt.getD "inline" = "file"
  · rw [if_pos hcond] at h
    cases lw with
    | false =>
      rw [if_neg (by simp)] at h
      exact RetrieveOutcome.noConfusion h
    | true =>
      rw [if_pos rfl] at h
      injection h with hr
      subst hr
      right
      exact ⟨rfl, by simp⟩
  · rw [if_neg hcond] at h
    injection h with hr
    subst hr
    left
    exact ⟨by simp, rfl⟩

/-- C4: round-trip.  Storing a payload under namespace n and identifier i and
then retrieving through the returned location yields the stored text inline
and the format recorded at store time.  The configured bucket name must not
contain a slash (S3 bucket names never do). -/
theorem c4_round_trip (hdr envBucket : String) (st st2 : S3State)
    (i j text fmt : String) (resp : StoreResponse)
    (htext : text ≠ "")
    (hb : ('/' : Char) ∉ (goBucket envBucket).data)
    (hstore : handleSemanticStore true hdr envBucket st ⟨i, some ⟨"", fmt, text⟩⟩
      = StoreOutcome.ok st2 resp) :
    handleSemanticRetrieve false true envBucket st2
        ⟨j, some ⟨resp.contentUrl, "", ""⟩, none, none, none⟩
      = RetrieveOutcome.ok ⟨some text, none, resp.encodingFormat, goByteLen text⟩ := by
  have hchar := store_text_ok hdr envBucket st i text fmt htext
  rw [hstore] at hchar
  injection hchar with hst hresp
  subst hst
  subst hresp
  have hparse : parseS3Key
      ("s3://" ++ goBucket envBucket ++ "/" ++ deriveKey (goWorkflowID hdr) i)
      = Except.ok (deriveKey (goWorkflowID hdr) i) := parseS3Key_build _ _ hb
  rw [handleSemanticRetrieve_parsed false true envBucket _ _
    ⟨"s3://" ++ goBucket envBucket ++ "/" ++ deriveKey (goWorkflowID hdr) i, "", ""⟩
    (deriveKey (goWorkflowID hdr) i) rfl hparse]
  simp [s3Get, getObject_put, routeOutput, goContentType]

/-- C4 witness: a concrete store followed by the retrieve through the
returned location. -/
theorem c4_witness :
    handleSemanticRetrieve false true ""
        (putObject [] "px-semantic" "workflow-results/default/wf-1.json"
          ⟨"hi", some "application/json"⟩)
        ⟨"wf-1", some ⟨"s3://px-semantic/workflow-results/default/wf-1.json", "", ""⟩,
         none, none, none⟩
      = RetrieveOutcome.ok ⟨some "hi", none, "application/json", goByteLen "hi"⟩ :=
  c4_round_trip "" "" [] _ "wf-1" "wf-1" "hi" "application/json"
    (StoreResponse.mk "DataDownload" "#wf-1-result"
      "s3://px-semantic/workflow-results/default/wf-1.json" "application/json" 2)
    (by decide) (by decide) rfl

/-- C5: output-routing precedence on Retrieve.  An explicit outputFile
property wins even when the outputType hint is also present; the bare hint
file with no explicit path routes to /tmp/{identifier}-result.dat; with
neither, the data is returned inline. -/
theorem c5_output_routing (envBucket : String) (st : S3State)
    (a : SemanticRetrieveAction) (obj : SemanticMediaObject) (o : S3Object)
    (key : String)
    (hobj : a.object = some obj)
    (hparse : parseS3Key obj.contentUrl = Except.ok key)
    (hget : getObject st (goBucket envBucket) key = some o) :
    (∀ p, a.propOutputFile = some p → p ≠ "" →
       handleSemanticRetrieve false true envBucket st a
         = RetrieveOutcome.ok ⟨none, some p, goContentType o, goByteLen o.body⟩) ∧
    ((a.propOutputFile = none ∨ a.propOutputFile = some "") →
     (a.resultContentUrl = none ∨ a.resultContentUrl = some "") →
     a.propOutputType = some "file" →
       handleSemanticRetrieve false true envBucket st a
         = RetrieveOutcome.ok ⟨none, some ("/tmp/" ++ a.identifier ++ "-result.dat"),
             goContentType o, goByteLen o.body⟩) ∧
    ((a.propOutputFile = none ∨ a.propOutputFile = some "") →
     (a.resultContentUrl = none ∨ a.resultContentUrl = some "") →
     (∀ t, a.propOutputType = some t → t ≠ "file") →
       handleSemanticRetrieve false true envBucket st a
         = RetrieveOutcome.ok ⟨some o.body, none, goContentType o, goByteLen o.body⟩) := by
  have hred := handleSemanticRetrieve_parsed false true envBucket st a obj key hobj hparse
  have hs3 : s3Get st false (goBucket envBucket) key = Except.ok o := by
    simp [s3Get, hget]
  rw [hs3] at hred
  refine ⟨?_, ?_, ?_⟩
  · intro p hp hpne
    rw [hred]
    simp [routeOutput, hp, hpne]
  · intro hpf hrc hpt
    rw [hred]
    rcases hpf with hpf | hpf <;> rcases hrc with hrc | hrc <;>
      simp [routeOutput, hpf, hrc, hpt]
  · intro hpf hrc hpt
    rw [hred]
    cases hptv : a.propOutputType with
    | none =>
      rcases hpf with hpf | hpf <;> rcases hrc with hrc | hrc <;>
        simp [routeOutput, hpf, hrc, hptv]
    | some t =>
      have ht := hpt t hptv
      rcases hpf with hpf | hpf <;> rcases hrc with hrc | hrc <;>
        simp [routeOutput, hpf, hrc, hptv, ht]

/-- C5 witness: explicit output path wins over the file hint at a concrete
stored object. -/
theorem c5_witness :
    handleSemanticRetrieve false true ""
        [(("px-semantic", "k"), ⟨"hello", some "text/plain"⟩)]
        ⟨"wf-9", some ⟨"s3://b/k", "", ""⟩, some "/out/res.json", some "file", none⟩
      = RetrieveOutcome.ok ⟨none, some "/out/res.json", "text/plain", 5⟩ :=
  (c5_output_routing "" [(("px-semantic", "k"), ⟨"hello", some "text/plain"⟩)]
    ⟨"wf-9", some ⟨"s3://b/k", "", ""⟩, some "/out/res.json", some "file", none⟩
    ⟨"s3://b/k", "", ""⟩ ⟨"hello", some "text/plain"⟩ "k" rfl rfl rfl).1
    "/out/res.json" rfl (by decide)

/-- C6: every successful Retrieve result populates exactly one of the inline
data and the file location, never both, never neither. -/
theorem c6_exactly_one (tf lw : Bool) (envBucket : String) (st : S3State)
    (a : SemanticRetrieveAction) (r : RetrievedResult)
    (h : handleSemanticRetrieve tf lw envBucket st a = RetrieveOutcome.ok r) :
    (r.inlineData ≠ none ∧ r.fileLocation = none) ∨
    (r.inlineData = none ∧ r.fileLocation ≠ none) := by
  cases hobj : a.object with
  | none => simp [handleSemanticRetrieve, hobj] at h
  | some obj =>
    simp only [handleSemanticRetrieve, hobj] at h
    by_cases hurl : obj.contentUrl = ""
    · rw [if_pos hurl] at h
      exact RetrieveOutcome.noConfusion h
    · rw [if_neg hurl] at h
      cases hp : parseS3Key obj.contentUrl with
      | error e =>
        cases e <;> simp only [hp] at h <;> exact RetrieveOutcome.noConfusion h
      | ok key =>
        simp only [hp] at h
        cases hg : s3Get st tf (goBucket envBucket) key with
        | error e =>
          simp only [hg] at h
          exact RetrieveOutcome.noConfusion h
        | ok o =>
          simp only [hg] at h
          exact routeOutput_ok_shape _ _ _ _ _ _ _ _ h

/-- C6 witness: the invariant at a concrete inline retrieve. -/
theorem c6_witness :
    ((RetrievedResult.mk (some "hello") none "text/plain" 5).inlineData ≠ none ∧
     (RetrievedResult.mk (some "hello") none "text/plain" 5).fileLocation = none) ∨
    ((RetrievedResult.mk (some "hello") none "text/plain" 5).inlineData = none ∧
     (RetrievedResult.mk (some "hello") none "text/plain" 5).fileLocation ≠ none) :=
  c6_exactly_one false true "" [(("px-semantic", "k"), ⟨"hello", some "text/plain"⟩)]
    ⟨"wf", some ⟨"s3://b/k", "", ""⟩, none, none, none⟩ _ rfl

/-- C7 counterexample: a semantic store action with an empty identifier is
not rejected; it reaches the object store and writes under the key
workflow-results/default/.json. -/
theorem c7_counterexample :
    handleSemanticStore true "" "" [] ⟨"", some ⟨"", "", "x"⟩⟩
      = StoreOutcome.ok
          (putObject [] "px-semantic" "workflow-results/default/.json"
            ⟨"x", some "application/json"⟩)
          ⟨"DataDownload", "#-result",
           "s3://px-semantic/workflow-results/default/.json",
           "application/json", 1⟩ := rfl

/-- C7 amended: only the legacy store endpoint rejects an empty identifier
before any storage operation; the semantic store path performs no identifier
validation and stores an empty-identifier payload under
workflow-results/{n}/.json. -/
theorem c7_identifier_amended :
    (∀ (putOk : Bool) (envBucket : String) (st : S3State) (req : StoreRequest),
       req.actionId = "" →
       handleStore putOk envBucket st req
         = StoreOutcome.badRequest "workflowId, actionId, and data are required") ∧
    (∀ st : S3State,
       handleSemanticStore true "" "" st ⟨"", some ⟨"", "", "x"⟩⟩
         = StoreOutcome.ok
             (putObject st "px-semantic" "workflow-results/default/.json"
               ⟨"x", some "application/json"⟩)
             ⟨"DataDownload", "#-result",
              "s3://px-semantic/workflow-results/default/.json",
              "application/json", 1⟩) := by
  constructor
  · intro putOk envBucket st req h
    unfold handleStore
    rw [if_pos (Or.inr (Or.inl h))]
  · intro st
    rfl

/-- C7 witness: the amended statement at concrete requests. -/
theorem c7_witness :
    handleStore true "" [] ⟨"wf", "", "d", ""⟩
      = StoreOutcome.badRequest "workflowId, actionId, and data are required" ∧
    handleSemanticStore true "" "" [] ⟨"", some ⟨"", "", "x"⟩⟩
      = StoreOutcome.ok
          (putObject [] "px-semantic" "workflow-results/default/.json"
            ⟨"x", some "application/json"⟩)
          ⟨"DataDownload", "#-result",
           "s3://px-semantic/workflow-results/default/.json",
           "application/json", 1⟩ :=
  ⟨c7_identifier_amended.1 true "" [] ⟨"wf", "", "d", ""⟩ rfl,
   c7_identifier_amended.2 []⟩

/-- The data of a derived key, normalized. -/
lemma deriveKey_data (ns i : String) :
    (deriveKey ns i).data
      = "workflow-results/".data ++ (ns.data ++ '/' :: (i.data ++ ".json".data)) := by
  unfold deriveKey
  rw [String.data_append, String.data_append, String.data_append]
  have hs : ("/" : String).data = [ '/'] := rfl
  rw [hs]
  simp [List.append_assoc]

/-- C8 counterexample: key derivation is not injective on all pairs; the
namespace a/b with identifier c collides with namespace a and identifier
b/c. -/
theorem c8_counterexample :
    deriveKey "a/b" "c" = deriveKey "a" "b/c" ∧
    ¬ (("a/b" : String) = "a" ∧ ("c" : String) = "b/c") :=
  ⟨rfl, by decide⟩

/-- C8 amended: key derivation is deterministic, and injective on all pairs
whose namespace contains no slash. -/
theorem c8_injective_amended (n1 i1 n2 i2 : String)
    (h1 : ('/' : Char) ∉ n1.data) (h2 : ('/' : Char) ∉ n2.data)
    (h : deriveKey n1 i1 = deriveKey n2 i2) : n1 = n2 ∧ i1 = i2 := by
  have hd := congrArg String.data h
  rw [deriveKey_data, deriveKey_data] at hd
  have hd2 := List.append_cancel_left hd
  obtain ⟨hn, hi⟩ := sep_inj _ _ _ _ h1 h2 hd2
  exact ⟨strExt hn, strExt (List.append_cancel_right hi)⟩

/-- C8 witness: the amended injectivity at concrete slash-free inputs. -/
theorem c8_witness : ("ns" : String) = "ns" ∧ ("id" : String) = "id" :=
  c8_injective_amended "ns" "id" "ns" "id" (by decide) (by decide) rfl

/-- C9: the REST convenience layer translates update and delete to the
action types UpdateAction and DeleteAction, which the action dispatcher
rejects as unsupported and which are never registered; only create and read
translate to accepted types. -/
theorem c9_update_delete_unsupported :
    dispatchActionType (restActionType RestVerb.update)
      = DispatchTarget.unsupported "UpdateAction" ∧
    dispatchActionType (restActionType RestVerb.delete)
      = DispatchTarget.unsupported "DeleteAction" ∧
    restActionType RestVerb.update ∉ registeredActionTypes ∧
    restActionType RestVerb.delete ∉ registeredActionTypes ∧
    dispatchActionType (restActionType RestVerb.create) = DispatchTarget.store ∧
    dispatchActionType (restActionType RestVerb.read) = DispatchTarget.retrieve :=
  ⟨rfl, rfl, by decide, by decide, rfl, rfl⟩

/-- C10: the bucket segment of the parsed location URI is discarded: two
URIs naming different buckets but the same key behave identically, any
successful fetch read the key from the configured bucket, and the configured
bucket defaults to px-semantic. -/
theorem c10_bucket_ignored (tf lw : Bool) (envBucket : String) (st : S3State)
    (i ef1 tx1 ef2 tx2 : String) (pf pt rc : Option String)
    (b1 b2 kp : String)
    (h1 : ('/' : Char) ∉ b1.data) (h2 : ('/' : Char) ∉ b2.data) :
    goBucket "" = "px-semantic" ∧
    handleSemanticRetrieve tf lw envBucket st
        ⟨i, some ⟨"s3://" ++ b1 ++ "/" ++ kp, ef1, tx1⟩, pf, pt, rc⟩
      = handleSemanticRetrieve tf lw envBucket st
        ⟨i, some ⟨"s3://" ++ b2 ++ "/" ++ kp, ef2, tx2⟩, pf, pt, rc⟩ ∧
    (∀ r, handleSemanticRetrieve tf lw envBucket st
          ⟨i, some ⟨"s3://" ++ b1 ++ "/" ++ kp, ef1, tx1⟩, pf, pt, rc⟩
        = RetrieveOutcome.ok r →
      ∃ o, getObject st (goBucket envBucket) kp = some o) := by
  have hp1 : parseS3Key ("s3://" ++ b1 ++ "/" ++ kp) = Except.ok kp :=
    parseS3Key_build _ _ h1
  have hp2 : parseS3Key ("s3://" ++ b2 ++ "/" ++ kp) = Except.ok kp :=
    parseS3Key_build _ _ h2
  have hr1 := handleSemanticRetrieve_parsed tf lw envBucket st
    ⟨i, some ⟨"s3://" ++ b1 ++ "/" ++ kp, ef1, tx1⟩, pf, pt, rc⟩
    ⟨"s3://" ++ b1 ++ "/" ++ kp, ef1, tx1⟩ kp rfl hp1
  have hr2 := handleSemanticRetrieve_parsed tf lw envBucket st
    ⟨i, some ⟨"s3://" ++ b2 ++ "/" ++ kp, ef2, tx2⟩, pf, pt, rc⟩
    ⟨"s3://" ++ b2 ++ "/" ++ kp, ef2, tx2⟩ kp rfl hp2
  refine ⟨rfl, ?_, ?_⟩
  · rw [hr1, hr2]
  · intro r hok
    rw [hr1] at hok
    cases tf with
    | true => simp [s3Get] at hok
    | false =>
      cases hg : getObject st (goBucket envBucket) kp with
      | none => simp [s3Get, hg] at hok
      | some o => exact ⟨o, rfl⟩

/-- C10 witness: two URIs differing only in the bucket at concrete inputs. -/
theorem c10_witness :
    goBucket "" = "px-semantic" ∧
    handleSemanticRetrieve false true "" []
        ⟨"wf", some ⟨"s3://bucketA/w/x.json", "", ""⟩, none, none, none⟩
      = handleSemanticRetrieve false true "" []
        ⟨"wf", some ⟨"s3://bucketB/w/x.json", "", ""⟩, none, none, none⟩ ∧
    (∀ r, handleSemanticRetrieve false true "" []
          ⟨"wf", some ⟨"s3://bucketA/w/x.json", "", ""⟩, none, none, none⟩
        = RetrieveOutcome.ok r →
      ∃ o, getObject [] (goBucket "") "w/x.json" = some o) :=
  c10_bucket_ignored false true "" [] "wf" "" "" "" "" none none none
    "bucketA" "bucketB" "w/x.json" (by decide) (by decide)

end WStorage
